import Mathlib

/-!
# Flash Number Trainer — verification of the run-loop core

Shallow embedding of `src/app/page.tsx` (Flash Number Trainer v1.1).

The embedded parts are the ones the claims are about:

* `generateStimulus` — the pure stimulus generator (lines 34-45).  `Math.random()`
  is modelled by an explicit stream `rand : Nat → ℚ` of samples assumed to lie in
  `[0, 1)`; `Math.floor` on those samples is exact integer floor.
* The `RunSession` component (lines 523-914) — modelled as a state machine over
  `RunState`, driven by discrete events (a pending timer firing, a keypad press, an
  answer submission, a pause toggle).  React state-update semantics are embedded
  explicitly: an event handler reads the state snapshot of the render it was created
  in, functional `setX` updates are applied to produce the next state, and a
  callback closed over a stale snapshot sees the stale values.  In particular
  `nextTrial` is a `useCallback` closing over the `results` value of its creation
  render, so the embedding threads that captured list separately from the
  up-to-date one.
* The phase-timer `useEffect` (lines 638-696): it early-returns while `isPaused`
  and its cleanup cancels the previous pending timer, so while paused no timer is
  pending; this is embedded by `timerFire` being disabled (`Option.none`) on a
  paused state.
* Stimulus generation inside the per-trial setup effect (lines 629-635) is random;
  the embedding lets the event that triggers a trial change carry the freshly
  generated string (a nondeterministic superset of the real behaviour, sound for
  the invariants proved here, none of which constrain stimulus contents).
* `onFinish` (line 621) unmounts the component (the parent switches the view), so
  the machine takes no further steps once `finished` is set.
* Score computation of `ResultScreen` (lines 918-920) and `exportCSV`
  (lines 225-248): JavaScript `x / 0` on `x = 0` yields `NaN`; this is modelled by
  `Option ℤ` with `Option.none` standing for `NaN`, and `Math.round` by
  `jsRound q = ⌊q + 1/2⌋` (round half toward +∞), which agrees with the float
  computation on every reachable `correct / total` with `total ≤ 20`.
-/

/-- One recorded trial outcome, as built at lines 657-667 and 724-734 of the
source.  NB the position field is named `trial` and is set to `trialIndex + 1`. -/
structure TrialResult where
  trial : Nat
  stimulus : String
  input : String
  isCorrect : Bool
  isVerbal : Bool
  timestamp : Nat
deriving DecidableEq, Repr

/-- The settings object (shape of `DEFAULT_SETTINGS`, lines 16-27).  Enumerated
fields are the strings the source uses. -/
structure Settings where
  mode : String
  digits : Nat
  displaySec : ℚ
  itiSec : ℚ
  trialsPerSet : Nat
  numberRange : String
  answerMode : String
  feedback : Bool
  feedbackSec : ℚ
  recording : Bool
deriving DecidableEq, Repr

/-- `DEFAULT_SETTINGS` (lines 16-27). -/
def DEFAULT_SETTINGS : Settings :=
  { mode := "sequence"
    digits := 4
    displaySec := 1/2
    itiSec := 1
    trialsPerSet := 5
    numberRange := "0-9"
    answerMode := "keypad"
    feedback := true
    feedbackSec := 1
    recording := false }

def MIN_DIGITS : Nat := 1

def MAX_DIGITS : Nat := 8

/-- The loop body of `generateStimulus` (line 41):
`Math.floor(Math.random() * (maxVal - minVal + 1)) + minVal`, with iteration
`i` consuming random sample `rand i` and `Math.floor` the exact floor of the
rational sample. -/
def genDigit (range : String) (rand : Nat → ℚ) (i : Nat) : ℤ :=
  let minVal : ℤ := if range = "1-9" then 1 else 0
  let maxVal : ℤ := 9
  ⌊rand i * ((maxVal - minVal + 1 : ℤ) : ℚ)⌋ + minVal

/-- `generateStimulus` (lines 34-45).  The for-loop appending
`digit.toString` per iteration is the fold over `List.range digits`. -/
def generateStimulus (digits : Nat) (range : String) (rand : Nat → ℚ) : String :=
  (List.range digits).foldl
    (fun numStr i => numStr ++ toString (genDigit range rand i))
    ""

/-- The five phases of the run loop (line 524). -/
inductive Phase
  | PREP
  | SHOW
  | HIDE
  | ANSWER
  | FEEDBACK
deriving DecidableEq, Repr

/-- The `RunSession` component state (lines 525-531), plus `finished`, which
records the payload of the single `onFinish` call (the component is unmounted by
its parent right after `onFinish`, so a set `finished` halts the machine). -/
structure RunState where
  phase : Phase
  trialIndex : Nat
  currentStimulus : String
  userInput : String
  results : List TrialResult
  isPaused : Bool
  feedbackState : Option String
  finished : Option (List TrialResult)
deriving DecidableEq, Repr

/-- The per-trial data-setup effect (lines 629-635): on a `trialIndex` change a
fresh stimulus is generated, input and feedback are cleared and the phase is
reset to PREP.  The freshly generated string is passed in by the caller. -/
def trialSetup (st : RunState) (stim : String) : RunState :=
  { st with
    currentStimulus := stim
    userInput := ""
    feedbackState := Option.none
    phase := Phase.PREP }

/-- `nextTrial` (lines 619-626).  It is a `useCallback` whose closure captured
`results` at its creation render; `renderResults` is that captured value, which
is what `onFinish` receives — NOT necessarily the list held in `st.results`
after pending functional updates.  On a non-final trial, incrementing
`trialIndex` triggers the data-setup effect (`trialSetup`). -/
def nextTrial (s : Settings) (st : RunState) (renderResults : List TrialResult)
    (stim : String) : RunState :=
  if st.trialIndex + 1 ≥ s.trialsPerSet then
    { st with finished := some renderResults }
  else
    trialSetup { st with trialIndex := st.trialIndex + 1 } stim

/-- `handleKeypad` (lines 700-711).  `userInput.slice(0, -1)` drops the last
character. -/
def handleKeypad (s : Settings) (st : RunState) (key : String) : RunState :=
  if st.phase ≠ Phase.ANSWER then st
  else if key = "DELETE" then
    { st with userInput := String.mk st.userInput.data.dropLast }
  else if key = "CLEAR" then
    { st with userInput := "" }
  else if st.userInput.length < s.digits then
    { st with userInput := st.userInput ++ key }
  else st

/-- `submitAnswer` (lines 713-742).  The appended record is the functional
`setResults` update; in the no-feedback branch the synchronous `nextTrial()`
call runs the closure created at the current render, whose captured `results`
is the pre-append `st.results`. -/
def submitAnswer (s : Settings) (st : RunState) (verbal : Bool) (now : Nat)
    (stim : String) : RunState :=
  if st.phase ≠ Phase.ANSWER then st
  else
    let isCorrect : Bool := if verbal then true else decide (st.userInput = st.currentStimulus)
    let record : TrialResult :=
      { trial := st.trialIndex + 1
        stimulus := st.currentStimulus
        input := if verbal then "(Verbal)" else st.userInput
        isCorrect := isCorrect
        isVerbal := verbal
        timestamp := now }
    let st1 := { st with results := st.results ++ [record] }
    if s.feedback then
      { st1 with
        feedbackState := some (if verbal then "verbal" else if isCorrect then "correct" else "incorrect")
        phase := Phase.FEEDBACK }
    else
      nextTrial s st1 st.results stim

/-- The phase-timer effect (lines 638-696), as the effect of the pending timer
firing.  While `isPaused` the effect early-returned after its predecessor's
cleanup cancelled the pending timer, so no timer can fire (`Option.none`); the
ANSWER phase schedules no timer.  In the HIDE case with `answerMode == "none"`
the timer callback appends the auto-record and calls the `nextTrial` closure of
its creation render, whose captured `results` is the pre-append `st.results`.
In the FEEDBACK case the callback is created at a render at which the
just-submitted record is already in `results`, so its capture is current. -/
def timerFire (s : Settings) (st : RunState) (now : Nat) (stim : String) :
    Option RunState :=
  if st.isPaused then Option.none
  else
    match st.phase with
    | Phase.PREP => some { st with phase := Phase.SHOW }
    | Phase.SHOW => some { st with phase := Phase.HIDE }
    | Phase.HIDE =>
      if s.answerMode = "none" then
        let record : TrialResult :=
          { trial := st.trialIndex + 1
            stimulus := st.currentStimulus
            input := "(None)"
            isCorrect := true
            isVerbal := true
            timestamp := now }
        some (nextTrial s { st with results := st.results ++ [record] } st.results stim)
      else
        some { st with phase := Phase.ANSWER }
    | Phase.ANSWER => Option.none
    | Phase.FEEDBACK => some (nextTrial s st st.results stim)

/-- The pause button (lines 757-767) toggles `isPaused` and is disabled unless
the phase is SHOW or HIDE. -/
def togglePause (st : RunState) : Option RunState :=
  if st.phase = Phase.SHOW ∨ st.phase = Phase.HIDE then
    some { st with isPaused := ! st.isPaused }
  else Option.none

/-- The keypad keys the UI can send to `handleKeypad` (lines 813-841):
the digit buttons 0-9, DELETE and CLEAR. -/
inductive Key
  | digit : Fin 10 → Key
  | del : Key
  | clear : Key
deriving DecidableEq, Repr

/-- The string each key passes to `handleKeypad` (`num.toString()`, "DELETE",
"CLEAR"). -/
def keyString : Key → String
  | Key.digit d => toString d.val
  | Key.del => "DELETE"
  | Key.clear => "CLEAR"

/-- The discrete events driving the run loop.  `timer` and `submit` carry the
`Date.now()` value and the string the stimulus generator produces in case a new
trial is set up. -/
inductive Event
  | timer : Nat → String → Event
  | keypad : Key → Event
  | submit : Bool → Nat → String → Event
  | pauseToggle : Event
deriving DecidableEq, Repr

/-- One event step of the run loop.  `Option.none` means the event cannot occur
in this state (no pending timer, disabled button, component already unmounted
after `onFinish`). -/
def step (s : Settings) (st : RunState) (e : Event) : Option RunState :=
  if st.finished.isSome then Option.none
  else
    match e with
    | Event.timer now stim => timerFire s st now stim
    | Event.keypad k => some (handleKeypad s st (keyString k))
    | Event.submit verbal now stim => some (submitAnswer s st verbal now stim)
    | Event.pauseToggle => togglePause st

/-- The state after the initial render and the mount run of the data-setup
effect (lines 525-531 and 629-635): PREP, trial 0, the freshly generated
stimulus, empty input, no results, not paused. -/
def initState (stim : String) : RunState :=
  { phase := Phase.PREP
    trialIndex := 0
    currentStimulus := stim
    userInput := ""
    results := []
    isPaused := false
    feedbackState := Option.none
    finished := Option.none }

/-- Run a list of events from a state; `Option.none` if some event is not
enabled. -/
def runTrace (s : Settings) (st : RunState) : List Event → Option RunState
  | [] => some st
  | e :: es =>
    match step s st e with
    | some st' => runTrace s st' es
    | Option.none => Option.none

/-- States reachable in a run under settings `s`. -/
inductive Reachable (s : Settings) : RunState → Prop
  | init (stim : String) : Reachable s (initState stim)
  | next {st st' : RunState} {e : Event} :
      Reachable s st → step s st e = some st' → Reachable s st'

/-- `correctCount` as computed at line 496 and line 919. -/
def correctCount (results : List TrialResult) : Nat :=
  (results.filter (fun r => r.isCorrect)).length

/-- JavaScript `Math.round`: round half toward positive infinity. -/
def jsRound (q : ℚ) : ℤ := ⌊q + 1/2⌋

/-- The score of `ResultScreen` (line 920):
`Math.round((correctCount / results.length) * 100)`.  `Option.none` is the
JavaScript `NaN` produced by `0 / 0` on an empty list. -/
def scoreValue (results : List TrialResult) : Option ℤ :=
  if results.length = 0 then Option.none
  else some (jsRound ((correctCount results : ℚ) / (results.length : ℚ) * 100))

/-- What `ResultScreen` renders for the score (`{score}` at line 934):
JavaScript stringifies `NaN` as "NaN". -/
def scoreText (results : List TrialResult) : String :=
  match scoreValue results with
  | Option.none => "NaN"
  | some z => toString z

/-- A persisted history record (lines 497-503). -/
structure HistoryRecord where
  timestamp : Nat
  settings : Settings
  results : List TrialResult
  total : Nat
  correct : Nat
deriving DecidableEq, Repr

/-- The record built in the `onFinish` handler (lines 495-505). -/
def mkHistoryRecord (now : Nat) (s : Settings) (results : List TrialResult) :
    HistoryRecord :=
  { timestamp := now
    settings := s
    results := results
    total := results.length
    correct := correctCount results }

/-- The `Score(%)` cell of `exportCSV` (line 236):
`Math.round((h.correct / h.total) * 100)`, `Option.none` for the `NaN` of
`0 / 0`. -/
def csvScore (h : HistoryRecord) : Option ℤ :=
  if h.total = 0 then Option.none
  else some (jsRound ((h.correct : ℚ) / (h.total : ℚ) * 100))

/-- The text placed in the `Score(%)` column by `rows.map(e => e.join(","))`:
`NaN` is stringified as "NaN". -/
def csvScoreText (h : HistoryRecord) : String :=
  match csvScore h with
  | Option.none => "NaN"
  | some z => toString z

/-- The allowed digit characters for each `numberRange` value: `[1,9]` for
`"1-9"`, `[0,9]` otherwise (the generator treats every non-`"1-9"` range as
`"0-9"`, line 36). -/
def allowedDigits (range : String) : List Char :=
  if range = "1-9" then ['1', '2', '3', '4', '5', '6', '7', '8', '9']
  else ['0', '1', '2', '3', '4', '5', '6', '7', '8', '9']

/-- The inductive invariant of the run loop: the keypad buffer never exceeds
`digits`; the trial index stays below `trialsPerSet`; every recorded result
carries a 1-based `trial` number in `[1, trialsPerSet]`; and in `"none"` answer
mode the ANSWER phase is never entered and every recorded result is a verbal,
forced-correct one. -/
def RunInv (s : Settings) (st : RunState) : Prop :=
  st.userInput.length ≤ s.digits ∧
  st.trialIndex < s.trialsPerSet ∧
  (∀ r ∈ st.results, 1 ≤ r.trial ∧ r.trial ≤ s.trialsPerSet) ∧
  (s.answerMode = "none" →
    st.phase ≠ Phase.ANSWER ∧ ∀ r ∈ st.results, r.isCorrect = true ∧ r.isVerbal = true)

/-- A run-settings object with verbal (`"none"`) answer mode and a single
trial per set. -/
def noneSettings1 : Settings :=
  { DEFAULT_SETTINGS with answerMode := "none", trialsPerSet := 1 }

/-- A run-settings object with verbal (`"none"`) answer mode and three trials
per set (the spec scenario). -/
def noneSettings3 : Settings :=
  { DEFAULT_SETTINGS with answerMode := "none", trialsPerSet := 3 }

/-- Keypad-mode settings with feedback disabled, one 1-digit trial per set. -/
def nofbSettings1 : Settings :=
  { DEFAULT_SETTINGS with feedback := false, trialsPerSet := 1, digits := 1 }

/-- A concrete ANSWER-phase state (the spec scenario: stimulus "4821", the
user has typed "4821"). -/
def stAnswer : RunState :=
  { phase := Phase.ANSWER
    trialIndex := 0
    currentStimulus := "4821"
    userInput := "4821"
    results := []
    isPaused := false
    feedbackState := Option.none
    finished := Option.none }

/-- A concrete SHOW-phase state that is paused. -/
def stPausedShow : RunState :=
  { phase := Phase.SHOW
    trialIndex := 0
    currentStimulus := "42"
    userInput := ""
    results := []
    isPaused := true
    feedbackState := Option.none
    finished := Option.none }

/-- The state reached under `noneSettings3` from `initState "123"` by nine
timer firings (three per trial: PREP, SHOW, HIDE): three results are recorded
internally, but `onFinish` received only the first two. -/
def c9state : RunState :=
  { phase := Phase.HIDE
    trialIndex := 2
    currentStimulus := "123"
    userInput := ""
    results := [⟨1, "123", "(None)", true, true, 0⟩, ⟨2, "123", "(None)", true, true, 0⟩,
      ⟨3, "123", "(None)", true, true, 0⟩]
    isPaused := false
    feedbackState := Option.none
    finished := some [⟨1, "123", "(None)", true, true, 0⟩, ⟨2, "123", "(None)", true, true, 0⟩] }

/-- The state reached under `noneSettings1` from `initState "4"` by three
timer firings: the single trial has been auto-recorded with `trial = 1` and
the set is complete (`onFinish` was called with the stale empty list). -/
def c9cex : RunState :=
  { phase := Phase.HIDE
    trialIndex := 0
    currentStimulus := "4"
    userInput := ""
    results := [⟨1, "4", "(None)", true, true, 0⟩]
    isPaused := false
    feedbackState := Option.none
    finished := some [] }

/-- The spec scenario result collection: correct, correct, incorrect,
correct. -/
def exResults : List TrialResult :=
  [⟨1, "11", "11", true, false, 0⟩, ⟨2, "22", "22", true, false, 0⟩,
    ⟨3, "33", "30", false, false, 0⟩, ⟨4, "44", "44", true, false, 0⟩]

/-! ## Stimulus generator (claim C4) -/

theorem genDigit_bounds (range : String) (rand : Nat → ℚ) (i : Nat)
    (h0 : 0 ≤ rand i) (h1 : rand i < 1) :
    (if range = "1-9" then (1 : ℤ) else 0) ≤ genDigit range rand i ∧
      genDigit range rand i ≤ 9 := by
  have hb : ∀ (k : ℚ) (z : ℤ), 0 < k → k = (z : ℚ) →
      0 ≤ ⌊rand i * k⌋ ∧ ⌊rand i * k⌋ ≤ z - 1 := by
    intro k z hk hkz
    constructor
    · exact Int.floor_nonneg.mpr (mul_nonneg h0 hk.le)
    · have hlt : rand i * k < (z : ℚ) := by
        calc rand i * k < 1 * k := mul_lt_mul_of_pos_right h1 hk
        _ = k := one_mul _
        _ = (z : ℚ) := hkz
      have := Int.floor_lt.mpr hlt
      omega
  by_cases hr : range = "1-9"
  · have h9 := hb 9 9 (by norm_num) (by norm_num)
    simp only [genDigit, hr, if_pos rfl]
    norm_num
    omega
  · have h10 := hb 10 10 (by norm_num) (by norm_num)
    simp only [genDigit, hr, if_neg hr, if_false]
    norm_num
    omega

theorem toString_digit_char (z : ℤ) (h0 : 0 ≤ z) (h9 : z ≤ 9) :
    (toString z).length = 1 ∧
      ∀ c ∈ (toString z).data,
        c ∈ allowedDigits "0-9" ∧ (1 ≤ z → c ∈ allowedDigits "1-9") := by
  interval_cases z <;> exact ⟨by decide, by decide⟩

theorem generateStimulus_spec_aux (digits : Nat) (range : String) (rand : Nat → ℚ)
    (hrand : ∀ i, 0 ≤ rand i ∧ rand i < 1) :
    (generateStimulus digits range rand).length = digits ∧
      ∀ c ∈ (generateStimulus digits range rand).data, c ∈ allowedDigits range := by
  induction digits with
  | zero => exact ⟨rfl, by simp [generateStimulus]⟩
  | succ n ih =>
    have hstep : generateStimulus (n + 1) range rand =
        generateStimulus n range rand ++ toString (genDigit range rand n) := by
      simp [generateStimulus, List.range_succ]
    obtain ⟨hlen, hmem⟩ := ih
    have hb := genDigit_bounds range rand n (hrand n).1 (hrand n).2
    have hnn : 0 ≤ genDigit range rand n := by
      rcases hb with ⟨h, -⟩
      split at h <;> omega
    have hch := toString_digit_char (genDigit range rand n) hnn hb.2
    constructor
    · rw [hstep, String.length_append, hlen, hch.1]
    · intro c hc
      rw [hstep, String.data_append] at hc
      rcases List.mem_append.mp hc with h | h
      · exact hmem c h
      · by_cases hr : range = "1-9"
        · have h1 : (1 : ℤ) ≤ genDigit range rand n := by
            have := hb.1
            rw [if_pos hr] at this
            exact this
          have := (hch.2 c h).2 h1
          simpa [hr] using this
        · have := (hch.2 c h).1
          simp only [allowedDigits, if_neg hr]
          simpa [allowedDigits] using this

/-- C4: for every `digits` in `[MIN_DIGITS, MAX_DIGITS] = [1, 8]` and `range`
in `{"0-9", "1-9"}`, `generateStimulus digits range rand` (for random samples
in `[0,1)`) is a string of length exactly `digits` whose every character is a
digit in `[0,9]` for range `"0-9"` and in `[1,9]` for range `"1-9"`. -/
theorem generateStimulus_length_and_range (digits : Nat) (range : String)
    (rand : Nat → ℚ)
    (hd1 : MIN_DIGITS ≤ digits) (hd8 : digits ≤ MAX_DIGITS)
    (hrange : range = "0-9" ∨ range = "1-9")
    (hrand : ∀ i, 0 ≤ rand i ∧ rand i < 1) :
    (generateStimulus digits range rand).length = digits ∧
      ∀ c ∈ (generateStimulus digits range rand).data, c ∈ allowedDigits range :=
  generateStimulus_spec_aux digits range rand hrand

/-- Witness for C4 at `digits = 4`, `range = "0-9"`, constant sample `1/2`. -/
theorem generateStimulus_length_and_range_witness :
    (MIN_DIGITS ≤ 4 ∧ 4 ≤ MAX_DIGITS ∧
      (("0-9" : String) = "0-9" ∨ ("0-9" : String) = "1-9") ∧
      (∀ i : Nat, 0 ≤ ((1 : ℚ)/2) ∧ ((1 : ℚ)/2) < 1)) ∧
    ((generateStimulus 4 "0-9" (fun _ => 1/2)).length = 4 ∧
      ∀ c ∈ (generateStimulus 4 "0-9" (fun _ => 1/2)).data,
        c ∈ allowedDigits "0-9") :=
  ⟨⟨by decide, by decide, Or.inl rfl, fun _ => ⟨by norm_num, by norm_num⟩⟩,
    generateStimulus_length_and_range 4 "0-9" (fun _ => 1/2) (by decide) (by decide)
      (Or.inl rfl) (fun _ => ⟨by norm_num, by norm_num⟩)⟩

/-! ## Run-loop invariants -/

theorem nextTrial_inv (s : Settings) (st : RunState) (rr : List TrialResult)
    (stim : String)
    (h1 : st.userInput.length ≤ s.digits)
    (h2 : st.trialIndex < s.trialsPerSet)
    (h3 : ∀ r ∈ st.results, 1 ≤ r.trial ∧ r.trial ≤ s.trialsPerSet)
    (h4 : s.answerMode = "none" →
      st.phase ≠ Phase.ANSWER ∧ ∀ r ∈ st.results, r.isCorrect = true ∧ r.isVerbal = true) :
    RunInv s (nextTrial s st rr stim) := by
  unfold nextTrial trialSetup RunInv
  split
  · exact ⟨h1, h2, h3, h4⟩
  · rename_i hlt
    dsimp only
    exact ⟨by simp, by omega, h3, fun hm => ⟨by simp, (h4 hm).2⟩⟩

/-- In the ANSWER phase, the DELETE key drops the last character of
`userInput` (line 703). -/
theorem handleKeypad_delete (s : Settings) (st : RunState)
    (h : st.phase = Phase.ANSWER) :
    handleKeypad s st "DELETE" =
      { st with userInput := String.mk st.userInput.data.dropLast } := by
  unfold handleKeypad
  rw [if_neg (not_not_intro h), if_pos rfl]

/-- In the ANSWER phase, the CLEAR key empties `userInput` (line 705). -/
theorem handleKeypad_clear (s : Settings) (st : RunState)
    (h : st.phase = Phase.ANSWER) :
    handleKeypad s st "CLEAR" = { st with userInput := "" } := by
  unfold handleKeypad
  rw [if_neg (not_not_intro h), if_neg (by decide), if_pos rfl]

/-- In the ANSWER phase, any key other than DELETE and CLEAR is appended to
`userInput` exactly when `userInput.length < digits` (lines 706-710). -/
theorem handleKeypad_append (s : Settings) (st : RunState) (key : String)
    (h : st.phase = Phase.ANSWER) (hk1 : key ≠ "DELETE") (hk2 : key ≠ "CLEAR") :
    handleKeypad s st key =
      if st.userInput.length < s.digits then
        { st with userInput := st.userInput ++ key }
      else st := by
  unfold handleKeypad
  rw [if_neg (not_not_intro h), if_neg hk1, if_neg hk2]

theorem handleKeypad_inv (s : Settings) (st : RunState) (k : Key)
    (h1 : st.userInput.length ≤ s.digits)
    (h2 : st.trialIndex < s.trialsPerSet)
    (h3 : ∀ r ∈ st.results, 1 ≤ r.trial ∧ r.trial ≤ s.trialsPerSet)
    (h4 : s.answerMode = "none" →
      st.phase ≠ Phase.ANSWER ∧ ∀ r ∈ st.results, r.isCorrect = true ∧ r.isVerbal = true) :
    RunInv s (handleKeypad s st (keyString k)) := by
  have hdig : ∀ d : Fin 10, toString d.val ≠ "DELETE" ∧ toString d.val ≠ "CLEAR" ∧
      (toString d.val).length = 1 := by decide
  by_cases hA : st.phase = Phase.ANSWER
  case neg =>
    have hid : handleKeypad s st (keyString k) = st := by
      unfold handleKeypad
      rw [if_pos hA]
    rw [hid]
    exact ⟨h1, h2, h3, h4⟩
  case pos =>
    have h4' : ∀ (x : RunState), x.results = st.results → s.answerMode = "none" →
        x.phase ≠ Phase.ANSWER ∧ ∀ r ∈ x.results, r.isCorrect = true ∧ r.isVerbal = true := by
      intro x hx hm
      exact absurd hA (h4 hm).1
    cases k with
    | del =>
      rw [show keyString Key.del = "DELETE" from rfl, handleKeypad_delete s st hA]
      refine ⟨?_, h2, h3, h4' _ rfl⟩
      have hdl : (String.mk st.userInput.data.dropLast).length =
          st.userInput.data.dropLast.length := rfl
      have hdll : st.userInput.data.dropLast.length = st.userInput.data.length - 1 :=
        List.length_dropLast _
      have hlen : st.userInput.length = st.userInput.data.length := rfl
      show (String.mk st.userInput.data.dropLast).length ≤ s.digits
      omega
    | clear =>
      rw [show keyString Key.clear = "CLEAR" from rfl, handleKeypad_clear s st hA]
      exact ⟨Nat.zero_le _, h2, h3, h4' _ rfl⟩
    | digit d =>
      rw [show keyString (Key.digit d) = toString d.val from rfl,
        handleKeypad_append s st _ hA (hdig d).1 (hdig d).2.1]
      split
      · rename_i hlt
        refine ⟨?_, h2, h3, h4' _ rfl⟩
        rw [String.length_append, (hdig d).2.2]
        omega
      · exact ⟨h1, h2, h3, h4⟩

theorem submitAnswer_inv (s : Settings) (st : RunState) (verbal : Bool)
    (now : Nat) (stim : String)
    (h1 : st.userInput.length ≤ s.digits)
    (h2 : st.trialIndex < s.trialsPerSet)
    (h3 : ∀ r ∈ st.results, 1 ≤ r.trial ∧ r.trial ≤ s.trialsPerSet)
    (h4 : s.answerMode = "none" →
      st.phase ≠ Phase.ANSWER ∧ ∀ r ∈ st.results, r.isCorrect = true ∧ r.isVerbal = true) :
    RunInv s (submitAnswer s st verbal now stim) := by
  by_cases hA : st.phase = Phase.ANSWER
  case neg =>
    have hid : submitAnswer s st verbal now stim = st := by
      unfold submitAnswer
      rw [if_pos hA]
    rw [hid]
    exact ⟨h1, h2, h3, h4⟩
  case pos =>
    have h3' : ∀ r ∈ st.results ++
        [{ trial := st.trialIndex + 1, stimulus := st.currentStimulus,
           input := if verbal then "(Verbal)" else st.userInput,
           isCorrect := if verbal then true else decide (st.userInput = st.currentStimulus),
           isVerbal := verbal, timestamp := now : TrialResult }],
        1 ≤ r.trial ∧ r.trial ≤ s.trialsPerSet := by
      intro r hr
      rcases List.mem_append.mp hr with h | h
      · exact h3 r h
      · rcases List.mem_singleton.mp h with rfl
        dsimp only
        omega
    have hcontr : ∀ (P : Prop), s.answerMode = "none" → P := by
      intro P hm
      exact absurd hA (h4 hm).1
    unfold submitAnswer
    rw [if_neg (not_not_intro hA)]
    dsimp only
    by_cases hf : s.feedback = true
    · rw [if_pos hf]
      exact ⟨h1, h2, h3', fun hm => hcontr _ hm⟩
    · rw [if_neg hf]
      exact nextTrial_inv s _ st.results stim h1 h2 h3' (fun hm => hcontr _ hm)

theorem step_inv (s : Settings) (st st' : RunState) (e : Event)
    (hstep : step s st e = some st') (hinv : RunInv s st) : RunInv s st' := by
  obtain ⟨h1, h2, h3, h4⟩ := hinv
  by_cases hfin : st.finished.isSome = true
  case pos =>
    unfold step at hstep
    rw [if_pos hfin] at hstep
    exact absurd hstep (by simp)
  case neg =>
  cases e with
  | timer now stim =>
    unfold step timerFire at hstep
    rw [if_neg hfin] at hstep
    dsimp only at hstep
    by_cases hp : st.isPaused = true
    case pos =>
      rw [if_pos hp] at hstep
      exact absurd hstep (by simp)
    case neg =>
    rw [if_neg hp] at hstep
    cases hph : st.phase <;> rw [hph] at hstep <;> dsimp only at hstep
    case PREP =>
      cases hstep
      exact ⟨h1, h2, h3, fun hm => ⟨by simp, (h4 hm).2⟩⟩
    case SHOW =>
      cases hstep
      exact ⟨h1, h2, h3, fun hm => ⟨by simp, (h4 hm).2⟩⟩
    case HIDE =>
      by_cases hm : s.answerMode = "none"
      case pos =>
        rw [if_pos hm] at hstep
        cases hstep
        refine nextTrial_inv s _ st.results stim h1 h2 ?_ ?_
        · intro r hr
          rcases List.mem_append.mp hr with h | h
          · exact h3 r h
          · rcases List.mem_singleton.mp h with rfl
            dsimp only
            omega
        · intro hm'
          refine ⟨by simp [hph], ?_⟩
          intro r hr
          rcases List.mem_append.mp hr with h | h
          · exact (h4 hm').2 r h
          · rcases List.mem_singleton.mp h with rfl
            exact ⟨rfl, rfl⟩
      case neg =>
        rw [if_neg hm] at hstep
        cases hstep
        exact ⟨h1, h2, h3, fun hm' => absurd hm' hm⟩
    case ANSWER => exact absurd hstep (by simp)
    case FEEDBACK =>
      cases hstep
      exact nextTrial_inv s st st.results stim h1 h2 h3
        (fun hm => ⟨by simp [hph], (h4 hm).2⟩)
  | keypad k =>
    unfold step at hstep
    rw [if_neg hfin] at hstep
    dsimp only at hstep
    cases hstep
    exact handleKeypad_inv s st k h1 h2 h3 h4
  | submit verbal now stim =>
    unfold step at hstep
    rw [if_neg hfin] at hstep
    dsimp only at hstep
    cases hstep
    exact submitAnswer_inv s st verbal now stim h1 h2 h3 h4
  | pauseToggle =>
    unfold step togglePause at hstep
    rw [if_neg hfin] at hstep
    dsimp only at hstep
    split at hstep
    · cases hstep
      exact ⟨h1, h2, h3, fun hm => ⟨(h4 hm).1, (h4 hm).2⟩⟩
    · exact absurd hstep (by simp)

/-- Every reachable state of a run with at least one trial per set satisfies
the invariant. -/
theorem reachable_inv (s : Settings) (hs : 1 ≤ s.trialsPerSet) (st : RunState)
    (h : Reachable s st) : RunInv s st := by
  induction h with
  | init stim =>
    exact ⟨by simp [initState, String.length], by simpa [initState] using hs,
      by simp [initState], fun _ => ⟨by simp [initState], by simp [initState]⟩⟩
  | next hr hstep ih => exact step_inv s _ _ _ hstep ih

/-! ## Shared handler lemmas -/

/-- Outside the ANSWER phase `handleKeypad` is the identity (early return,
line 701). -/
theorem handleKeypad_id (s : Settings) (st : RunState) (key : String)
    (h : st.phase ≠ Phase.ANSWER) : handleKeypad s st key = st := by
  unfold handleKeypad
  rw [if_pos h]

/-- Outside the ANSWER phase `submitAnswer` is the identity (early return,
line 714). -/
theorem submitAnswer_id (s : Settings) (st : RunState) (verbal : Bool)
    (now : Nat) (stim : String) (h : st.phase ≠ Phase.ANSWER) :
    submitAnswer s st verbal now stim = st := by
  unfold submitAnswer
  rw [if_pos h]

/-- A submission in the ANSWER phase appends exactly the record of
lines 724-734 to `results`, whatever the feedback setting. -/
theorem submitAnswer_results (s : Settings) (st : RunState) (verbal : Bool)
    (now : Nat) (stim : String) (hA : st.phase = Phase.ANSWER) :
    (submitAnswer s st verbal now stim).results = st.results ++
      [{ trial := st.trialIndex + 1
         stimulus := st.currentStimulus
         input := if verbal then "(Verbal)" else st.userInput
         isCorrect := if verbal then true else decide (st.userInput = st.currentStimulus)
         isVerbal := verbal
         timestamp := now }] := by
  unfold submitAnswer
  rw [if_neg (not_not_intro hA)]
  dsimp only
  by_cases hf : s.feedback = true
  · rw [if_pos hf]
  · rw [if_neg hf]
    unfold nextTrial trialSetup
    dsimp only
    split <;> split <;> rfl

/-- A state reached from a reachable state by a trace of enabled events is
reachable. -/
theorem runTrace_reachable (s : Settings) (st : RunState) (es : List Event)
    (st' : RunState) (h : Reachable s st) (hrun : runTrace s st es = some st') :
    Reachable s st' := by
  induction es generalizing st with
  | nil =>
    have heq : st = st' := by simpa [runTrace] using hrun
    exact heq ▸ h
  | cons e es ih =>
    unfold runTrace at hrun
    cases hstep : step s st e with
    | none => rw [hstep] at hrun; exact absurd hrun (by simp)
    | some st1 =>
      rw [hstep] at hrun
      exact ih st1 (Reachable.next h hstep) hrun

/-! ## Claim theorems -/

/-- C2: a non-verbal (keypad) submission during the ANSWER phase records
exactly one result whose `input` is the submitted `userInput`, whose
`stimulus` is the flashed stimulus, and whose `isCorrect` is the decidable
(case- and length-sensitive) string equality `userInput = currentStimulus`;
the trailing equivalence ties the Boolean to propositional string equality. -/
theorem keypad_submit_isCorrect (s : Settings) (st : RunState) (now : Nat)
    (stim : String) (hmode : s.answerMode = "keypad")
    (hA : st.phase = Phase.ANSWER) :
    (submitAnswer s st false now stim).results = st.results ++
      [{ trial := st.trialIndex + 1
         stimulus := st.currentStimulus
         input := st.userInput
         isCorrect := decide (st.userInput = st.currentStimulus)
         isVerbal := false
         timestamp := now }] ∧
    (decide (st.userInput = st.currentStimulus) = true ↔
      st.userInput = st.currentStimulus) := by
  constructor
  · rw [submitAnswer_results s st false now stim hA]
    simp
  · exact decide_eq_true_iff

/-- Witness for C2 at the spec scenario: stimulus "4821", input "4821". -/
theorem keypad_submit_isCorrect_witness :
    (DEFAULT_SETTINGS.answerMode = "keypad" ∧ stAnswer.phase = Phase.ANSWER) ∧
    ((submitAnswer DEFAULT_SETTINGS stAnswer false 7 "x").results =
      stAnswer.results ++
        [{ trial := stAnswer.trialIndex + 1
           stimulus := stAnswer.currentStimulus
           input := stAnswer.userInput
           isCorrect := decide (stAnswer.userInput = stAnswer.currentStimulus)
           isVerbal := false
           timestamp := 7 }] ∧
      (decide (stAnswer.userInput = stAnswer.currentStimulus) = true ↔
        stAnswer.userInput = stAnswer.currentStimulus)) :=
  ⟨⟨rfl, rfl⟩, keypad_submit_isCorrect DEFAULT_SETTINGS stAnswer 7 "x" rfl rfl⟩

/-- C3: in `"none"` answer mode every reachable state has never entered the
ANSWER phase and every recorded result is forced-correct and verbal; a verbal
submission records a forced-correct verbal result; and the concrete
`trialsPerSet = 3` scenario records exactly three results, all of them
correct and verbal. -/
theorem none_mode_forced_correct :
    (∀ (s : Settings) (st : RunState), 1 ≤ s.trialsPerSet →
      s.answerMode = "none" → Reachable s st →
      st.phase ≠ Phase.ANSWER ∧
        ∀ r ∈ st.results, r.isCorrect = true ∧ r.isVerbal = true) ∧
    (∀ (s : Settings) (st : RunState) (now : Nat) (stim : String),
      st.phase = Phase.ANSWER →
      (submitAnswer s st true now stim).results = st.results ++
        [{ trial := st.trialIndex + 1
           stimulus := st.currentStimulus
           input := "(Verbal)"
           isCorrect := true
           isVerbal := true
           timestamp := now }]) ∧
    ((runTrace noneSettings3 (initState "123")
        (List.replicate 9 (Event.timer 0 "123"))).map
      (fun st => (st.results.length,
        st.results.all (fun r => r.isCorrect && r.isVerbal))) = some (3, true)) := by
  refine ⟨?_, ?_, by decide⟩
  · intro s st hs hm hr
    exact (reachable_inv s hs st hr).2.2.2 hm
  · intro s st now stim hA
    rw [submitAnswer_results s st true now stim hA]
    simp

/-- Witness for C3: the initial state of the three-trial verbal scenario, and
a concrete verbal submission. -/
theorem none_mode_forced_correct_witness :
    (1 ≤ noneSettings3.trialsPerSet ∧ noneSettings3.answerMode = "none" ∧
      (initState "123").phase ≠ Phase.ANSWER) ∧
    (stAnswer.phase = Phase.ANSWER ∧
      (submitAnswer DEFAULT_SETTINGS stAnswer true 5 "99").results =
        stAnswer.results ++
          [{ trial := stAnswer.trialIndex + 1
             stimulus := stAnswer.currentStimulus
             input := "(Verbal)"
             isCorrect := true
             isVerbal := true
             timestamp := 5 }]) :=
  ⟨⟨by decide, rfl,
    (none_mode_forced_correct.1 noneSettings3 (initState "123") (by decide) rfl
      (Reachable.init "123")).1⟩,
   ⟨rfl, none_mode_forced_correct.2.1 DEFAULT_SETTINGS stAnswer 5 "99" rfl⟩⟩

/-- C7: while `isPaused` is true in the SHOW phase no enabled event can move
the machine to HIDE — the pending timer was cancelled and the timer effect
early-returns, keypad and submission handlers are no-ops outside ANSWER, and
toggling pause keeps the phase — so the SHOW→HIDE transition can only happen
after a resume. -/
theorem paused_show_never_hides (s : Settings) (st st' : RunState) (e : Event)
    (hp : st.isPaused = true) (hs : st.phase = Phase.SHOW)
    (hstep : step s st e = some st') :
    st'.phase = Phase.SHOW ∧ st'.phase ≠ Phase.HIDE := by
  have hns : st.phase ≠ Phase.ANSWER := by rw [hs]; decide
  have hmain : st'.phase = Phase.SHOW := by
    by_cases hfin : st.finished.isSome = true
    · unfold step at hstep
      rw [if_pos hfin] at hstep
      exact absurd hstep (by simp)
    · cases e with
      | timer now stim =>
        unfold step timerFire at hstep
        rw [if_neg hfin] at hstep
        dsimp only at hstep
        rw [if_pos hp] at hstep
        exact absurd hstep (by simp)
      | keypad k =>
        unfold step at hstep
        rw [if_neg hfin] at hstep
        dsimp only at hstep
        cases hstep
        rw [handleKeypad_id s st (keyString k) hns]
        exact hs
      | submit verbal now stim =>
        unfold step at hstep
        rw [if_neg hfin] at hstep
        dsimp only at hstep
        cases hstep
        rw [submitAnswer_id s st verbal now stim hns]
        exact hs
      | pauseToggle =>
        unfold step togglePause at hstep
        rw [if_neg hfin] at hstep
        dsimp only at hstep
        rw [if_pos (Or.inl hs)] at hstep
        cases hstep
        exact hs
  exact ⟨hmain, by rw [hmain]; decide⟩

/-- Witness for C7: a paused SHOW state stepped by the pause toggle (the one
enabled event) stays in SHOW. -/
theorem paused_show_never_hides_witness :
    (stPausedShow.isPaused = true ∧ stPausedShow.phase = Phase.SHOW ∧
      step DEFAULT_SETTINGS stPausedShow Event.pauseToggle =
        some { stPausedShow with isPaused := false }) ∧
    (({ stPausedShow with isPaused := false } : RunState).phase = Phase.SHOW ∧
      ({ stPausedShow with isPaused := false } : RunState).phase ≠ Phase.HIDE) :=
  ⟨⟨rfl, rfl, by decide⟩,
    paused_show_never_hides DEFAULT_SETTINGS stPausedShow _ Event.pauseToggle rfl rfl
      (by decide)⟩

/-- C8: during the ANSWER phase a key that is neither DELETE nor CLEAR (the
UI only sends the digits "0"–"9") is appended to `userInput` exactly when
`userInput.length < digits`; DELETE removes exactly the last character; CLEAR
resets the buffer to the empty string; and on every reachable state
`userInput.length ≤ digits`. -/
theorem keypad_editing_semantics :
    (∀ (s : Settings) (st : RunState) (key : String), st.phase = Phase.ANSWER →
      key ≠ "DELETE" → key ≠ "CLEAR" →
      handleKeypad s st key =
        if st.userInput.length < s.digits then
          { st with userInput := st.userInput ++ key }
        else st) ∧
    (∀ (s : Settings) (st : RunState), st.phase = Phase.ANSWER →
      handleKeypad s st "DELETE" =
        { st with userInput := String.mk st.userInput.data.dropLast }) ∧
    (∀ (s : Settings) (st : RunState), st.phase = Phase.ANSWER →
      handleKeypad s st "CLEAR" = { st with userInput := "" }) ∧
    (∀ (s : Settings) (st : RunState), 1 ≤ s.trialsPerSet → Reachable s st →
      st.userInput.length ≤ s.digits) :=
  ⟨fun s st key h hk1 hk2 => handleKeypad_append s st key h hk1 hk2,
   fun s st h => handleKeypad_delete s st h,
   fun s st h => handleKeypad_clear s st h,
   fun s st hs hr => (reachable_inv s hs st hr).1⟩

/-- Witness for C8: pressing "5" with buffer "4821" full does nothing (the
default `digits` is 4), DELETE shortens "4821" to "482", CLEAR empties it,
and the freshly mounted state respects the length bound. -/
theorem keypad_editing_semantics_witness :
    (stAnswer.phase = Phase.ANSWER ∧ ("5" : String) ≠ "DELETE" ∧
      ("5" : String) ≠ "CLEAR" ∧ 1 ≤ DEFAULT_SETTINGS.trialsPerSet) ∧
    (handleKeypad DEFAULT_SETTINGS stAnswer "5" =
      (if stAnswer.userInput.length < DEFAULT_SETTINGS.digits then
        { stAnswer with userInput := stAnswer.userInput ++ "5" }
      else stAnswer) ∧
    handleKeypad DEFAULT_SETTINGS stAnswer "DELETE" =
      { stAnswer with userInput := String.mk stAnswer.userInput.data.dropLast } ∧
    handleKeypad DEFAULT_SETTINGS stAnswer "CLEAR" =
      { stAnswer with userInput := "" } ∧
    (initState "4821").userInput.length ≤ DEFAULT_SETTINGS.digits) :=
  ⟨⟨rfl, by decide, by decide, by decide⟩,
   keypad_editing_semantics.1 DEFAULT_SETTINGS stAnswer "5" rfl (by decide) (by decide),
   keypad_editing_semantics.2.1 DEFAULT_SETTINGS stAnswer rfl,
   keypad_editing_semantics.2.2.1 DEFAULT_SETTINGS stAnswer rfl,
   keypad_editing_semantics.2.2.2 DEFAULT_SETTINGS (initState "4821") (by decide)
     (Reachable.init "4821")⟩

/-- C9 counterexample: the claim says every recorded result carries a 0-based
index with `0 ≤ index < trialsPerSet`.  In the reachable state `c9cex`
(a completed single-trial verbal run) the recorded result's position field
`trial` equals 1 = `trialsPerSet`, so it is 1-based and violates
`index < trialsPerSet`. -/
theorem result_index_not_zero_based :
    Reachable noneSettings1 c9cex ∧
    c9cex.results.map (fun r => r.trial) = [1] ∧
    ¬ (∀ r ∈ c9cex.results, r.trial < noneSettings1.trialsPerSet) :=
  ⟨runTrace_reachable noneSettings1 (initState "4")
      [Event.timer 0 "4", Event.timer 0 "4", Event.timer 0 "4"] c9cex
      (Reachable.init "4") (by decide),
   rfl, by decide⟩

/-- C9 (amended): every recorded trial result carries a 1-based trial number
(the field `trial`, set to `trialIndex + 1` at lines 660 and 727) satisfying
`1 ≤ trial ≤ trialsPerSet` in every reachable state of a run with valid
settings. -/
theorem result_trial_number_bounds (s : Settings) (st : RunState)
    (hs : 1 ≤ s.trialsPerSet) (hr : Reachable s st) :
    ∀ r ∈ st.results, 1 ≤ r.trial ∧ r.trial ≤ s.trialsPerSet :=
  (reachable_inv s hs st hr).2.2.1

/-- Witness for C9 (amended) at the reachable three-trial state `c9state`. -/
theorem result_trial_number_bounds_witness :
    1 ≤ noneSettings3.trialsPerSet ∧
    (∀ r ∈ c9state.results, 1 ≤ r.trial ∧ r.trial ≤ noneSettings3.trialsPerSet) :=
  ⟨by decide,
   result_trial_number_bounds noneSettings3 c9state (by decide)
     (runTrace_reachable noneSettings3 (initState "123")
       (List.replicate 9 (Event.timer 0 "123")) c9state (Reachable.init "123")
       (by decide))⟩

/-- C10: outside the ANSWER phase both `handleKeypad` and `submitAnswer` are
no-ops on the whole state (input, results, phase, feedback all unchanged);
moreover a submission in the ANSWER phase leaves a state that is either no
longer in ANSWER or finished, so a trial can record at most one result
through submission. -/
theorem non_answer_handlers_noop :
    (∀ (s : Settings) (st : RunState) (key : String),
      st.phase ≠ Phase.ANSWER → handleKeypad s st key = st) ∧
    (∀ (s : Settings) (st : RunState) (verbal : Bool) (now : Nat) (stim : String),
      st.phase ≠ Phase.ANSWER → submitAnswer s st verbal now stim = st) ∧
    (∀ (s : Settings) (st : RunState) (verbal : Bool) (now : Nat) (stim : String),
      st.phase = Phase.ANSWER →
      (submitAnswer s st verbal now stim).phase ≠ Phase.ANSWER ∨
        (submitAnswer s st verbal now stim).finished.isSome = true) := by
  refine ⟨fun s st key h => handleKeypad_id s st key h,
    fun s st verbal now stim h => submitAnswer_id s st verbal now stim h, ?_⟩
  intro s st verbal now stim hA
  unfold submitAnswer
  rw [if_neg (not_not_intro hA)]
  dsimp only
  by_cases hf : s.feedback = true
  · rw [if_pos hf]
    left
    show Phase.FEEDBACK ≠ Phase.ANSWER
    decide
  · rw [if_neg hf]
    unfold nextTrial trialSetup
    dsimp only
    split
    · right
      rfl
    · left
      show Phase.PREP ≠ Phase.ANSWER
      decide
/-- Witness for C10: both handlers leave a SHOW-phase state untouched, and a
concrete ANSWER-phase submission leaves the ANSWER phase. -/
theorem non_answer_handlers_noop_witness :
    (stPausedShow.phase ≠ Phase.ANSWER ∧ stAnswer.phase = Phase.ANSWER) ∧
    (handleKeypad DEFAULT_SETTINGS stPausedShow "5" = stPausedShow ∧
     submitAnswer DEFAULT_SETTINGS stPausedShow false 3 "x" = stPausedShow ∧
     ((submitAnswer DEFAULT_SETTINGS stAnswer false 3 "x").phase ≠ Phase.ANSWER ∨
       (submitAnswer DEFAULT_SETTINGS stAnswer false 3 "x").finished.isSome = true)) :=
  ⟨⟨by decide, rfl⟩,
   non_answer_handlers_noop.1 DEFAULT_SETTINGS stPausedShow "5" (by decide),
   non_answer_handlers_noop.2.1 DEFAULT_SETTINGS stPausedShow false 3 "x" (by decide),
   non_answer_handlers_noop.2.2 DEFAULT_SETTINGS stAnswer false 3 "x" rfl⟩

/-- C1 (bug evidence): advancing past the final trial is supposed to hand the
full `results` list (one entry per trial) to `onFinish`, but the `nextTrial`
closure captures the `results` state value of its creation render, which does
not yet contain the record appended in the same event handler.  In a
single-trial verbal run (and equally in a keypad run with feedback disabled)
`onFinish` therefore receives 0 entries while one result was recorded
internally; the claim requires exactly `trialsPerSet = 1` entries. -/
theorem onFinish_misses_last_result :
    ((runTrace noneSettings1 (initState "4")
        [Event.timer 0 "4", Event.timer 0 "4", Event.timer 0 "4"]).map
      (fun st => (st.finished.map List.length, st.results.length))) =
        some (some 0, 1) ∧
    ((runTrace nofbSettings1 (initState "4")
        [Event.timer 0 "4", Event.timer 0 "4", Event.timer 0 "4",
         Event.keypad (Key.digit 4), Event.submit false 0 "4"]).map
      (fun st => (st.finished.map List.length, st.results.length))) =
        some (some 0, 1) ∧
    noneSettings1.trialsPerSet = 1 ∧ nofbSettings1.trialsPerSet = 1 := by
  refine ⟨by decide, by decide, rfl, rfl⟩

/-- C5 (bug evidence): on an empty result collection the score computation
`Math.round((correct / total) * 100)` divides 0 by 0, producing `NaN`
(modelled as `Option.none`); `ResultScreen` renders it as "NaN" and a
history record with `total = 0` would export "NaN" to CSV — the undefined
score is neither treated as 0 nor suppressed.  The final conjunct shows the
empty collection actually reaches `ResultScreen`: a single-trial verbal run
hands `onFinish` the empty list. -/
theorem empty_results_score_is_NaN :
    scoreValue [] = Option.none ∧
    scoreText [] = "NaN" ∧
    csvScore (mkHistoryRecord 0 noneSettings1 []) = Option.none ∧
    csvScoreText (mkHistoryRecord 0 noneSettings1 []) = "NaN" ∧
    ((runTrace noneSettings1 (initState "4")
        [Event.timer 0 "4", Event.timer 0 "4", Event.timer 0 "4"]).map
      (fun st => st.finished)) = some (some []) := by
  refine ⟨rfl, rfl, rfl, rfl, by decide⟩

/-- C6: on every non-empty result collection the `ResultScreen` score and the
CSV `Score(%)` cell of the history record built from it both equal
`round(correct / total * 100)`; in particular the collection
correct, correct, incorrect, correct scores 75. -/
theorem score_round_formula (results : List TrialResult) (now : Nat)
    (s : Settings) (h : results ≠ []) :
    (scoreValue results =
        some (jsRound ((correctCount results : ℚ) / (results.length : ℚ) * 100)) ∧
      csvScore (mkHistoryRecord now s results) =
        some (jsRound ((correctCount results : ℚ) / (results.length : ℚ) * 100))) ∧
    (scoreValue exResults = some 75 ∧
      csvScore (mkHistoryRecord now s exResults) = some 75) := by
  have hl : results.length ≠ 0 := fun hh => h (List.length_eq_zero.mp hh)
  have hex : scoreValue exResults = some 75 := by
    unfold scoreValue
    rw [if_neg (by decide : exResults.length ≠ 0)]
    have hcc : correctCount exResults = 3 := by decide
    have hln : exResults.length = 4 := rfl
    rw [hcc, hln]
    norm_num [jsRound]
  refine ⟨⟨?_, ?_⟩, hex, ?_⟩
  · unfold scoreValue
    rw [if_neg hl]
  · unfold csvScore mkHistoryRecord
    dsimp only
    rw [if_neg hl]
  · unfold csvScore mkHistoryRecord
    dsimp only
    rw [if_neg (by decide : exResults.length ≠ 0)]
    have hcc : correctCount exResults = 3 := by decide
    have hln : exResults.length = 4 := rfl
    rw [hcc, hln]
    norm_num [jsRound]

/-- Witness for C6 at the spec scenario collection. -/
theorem score_round_formula_witness :
    exResults ≠ [] ∧
    (scoreValue exResults =
        some (jsRound ((correctCount exResults : ℚ) / (exResults.length : ℚ) * 100)) ∧
      csvScore (mkHistoryRecord 0 DEFAULT_SETTINGS exResults) =
        some (jsRound ((correctCount exResults : ℚ) / (exResults.length : ℚ) * 100))) ∧
    (scoreValue exResults = some 75 ∧
      csvScore (mkHistoryRecord 0 DEFAULT_SETTINGS exResults) = some 75) := by
  have h := score_round_formula exResults 0 DEFAULT_SETTINGS (by decide)
  exact ⟨by decide, h.1, h.2⟩
